import Mathlib

/-!
Shallow embedding of the sdstore Collection engine (`indexing.go`).

Records are structured Go values whose exported fields hold strings; every
codec of the repository round-trips such a record exactly.  The codecs do
differ in one observable place: decoding a stored record into a nil Go
`any` yields a `map[string]any` under `json.Unmarshal`, but a
`map[interface{}]interface{}` under the ugorji `CodecEncoder` handles (CBOR
— the store default installed by `New` — plus msgpack and binc), so the
`map[string]any` type assertion inside `Update` succeeds only for the JSON
codec; that distinction is modelled by `Codec` and `oldRecValues`.  The
filesystem is modelled as the association list of record files of the
collection directory (in traversal order) plus the optional index file; a
record file either decodes to a struct or is corrupt.  Go runtime panics
(reflect panics, integer division by zero, slice bounds) are modelled by
`Option`: `none` is a panic, `some` a normal return.
-/

namespace SDStore

/-- A Go struct value with string-typed exported fields, listed in declaration
order; by the repository convention the first field is the record identifier. -/
structure GoStruct where
  fields : List (String × String)
deriving DecidableEq, Repr

/-- A Go `any` argument as passed to the Collection API: untyped nil, a struct
value, a pointer to a struct, or some other value (neither a struct nor a
pointer to one). -/
inductive GoValue where
  | goNil
  | structVal (s : GoStruct)
  | ptrVal (s : GoStruct)
  | primVal (v : String)
deriving DecidableEq, Repr

/-- A Go `any` as produced by boxing a reflection access: untyped nil, a valid
`reflect.Value` holding a string field value, or the zero `reflect.Value`
(what `FieldByName` yields when the struct has no field of that name). -/
inductive GoAny where
  | goNil
  | reflectVal (v : String)
  | reflectInvalid
deriving DecidableEq, Repr

/-- A record file on disk: bytes that decode to a struct, or corrupt bytes
that fail to decode. -/
inductive RecFile where
  | good (s : GoStruct)
  | corrupt
deriving DecidableEq, Repr

/-- The error values surfaced by the Collection operations (`indexing.go`):
the sentinel errors, the IndexedValueNotUniqueError struct, and the wrapped
codec/filesystem failures. -/
inductive SdError where
  | notInitialized
  | alreadyInitialized
  | invalidRecordType
  | idNotUnique
  | notFound
  | indexedValueNotUnique (field : String)
  | decodeFailed
  | encodeFailed
  | removeFailed
  | loadFailed
deriving DecidableEq, Repr

/-- Association-list lookup, modelling a Go `map[string]V` read. -/
def alookup {β : Type} : List (String × β) → String → Option β
  | [], _ => none
  | (k, v) :: rest, k2 => if k2 = k then some v else alookup rest k2

/-- Association-list key removal, modelling Go `delete(m, k)`. -/
def aerase {β : Type} : List (String × β) → String → List (String × β)
  | [], _ => []
  | (k, v) :: rest, k2 => if k = k2 then aerase rest k2 else (k, v) :: aerase rest k2

/-- Association-list insertion, modelling a Go `m[k] = v` map assignment. -/
def ainsert {β : Type} (m : List (String × β)) (k : String) (v : β) : List (String × β) :=
  (k, v) :: aerase m k

/-- Removal of every entry whose mapped value equals `id`, modelling the
delete-while-ranging loop of `Delete`. -/
def aremoveVal : List (String × String) → String → List (String × String)
  | [], _ => []
  | (k, v) :: rest, id => if v = id then aremoveVal rest id else (k, v) :: aremoveVal rest id

/-- The in-memory index table `Indexing.Indexes`. -/
abbrev IndexTable := List (String × String)

/-- The on-disk index file: absent, or the persisted `Indexing` struct
(`Fields` and `Indexes`). -/
abbrev DiskIndex := Option (List String × IndexTable)

/-- `isStruct` from `indexing.go`: `reflect.ValueOf(v).Kind() == reflect.Struct`. -/
def isStruct : GoValue → Bool
  | .structVal _ => true
  | _ => false

/-- `isPointerToStruct` from `indexing.go`.  `reflect.TypeOf(nil)` is the nil
`Type` interface, on which `.Kind()` panics: that case is `none`. -/
def isPointerToStruct : GoValue → Option Bool
  | .goNil => none
  | .ptrVal _ => some true
  | _ => some false

/-- The validation `!isStruct(v) && !isPointerToStruct(v)` shared by Create,
Get, GetIndexed and Update: `some true` means the value is acceptable,
`some false` means the invalid-record-type rejection, `none` means the check
itself panicked (nil input). -/
def checkRecordType (v : GoValue) : Option Bool :=
  if isStruct v then some true
  else
    match isPointerToStruct v with
    | none => none
    | some b => some b

/-- `reflect.Value.FieldByName` on a struct value: the boxed field value when
the field exists, the zero `reflect.Value` otherwise. -/
def fieldByName (s : GoStruct) (field : String) : GoAny :=
  match alookup s.fields field with
  | some v => GoAny.reflectVal v
  | none => GoAny.reflectInvalid

/-- `getFieldValue` from `indexing.go`.  The guard admits structs and pointers
to structs, but `reflect.ValueOf(v).FieldByName` is then called without
dereferencing, and it panics (`none`) whenever the `Kind` is not `Struct` —
so every pointer-to-struct input panics, as does nil input (inside the
guard itself). -/
def getFieldValue (v : GoValue) (field : String) : Option GoAny :=
  match v with
  | .goNil => none
  | .ptrVal _ => none
  | .primVal _ => some GoAny.goNil
  | .structVal s => some (fieldByName s field)

/-- `fmt.Sprintf("%v", x)` on the boxed reflection results used as index-key
values: a valid `reflect.Value` prints its underlying value, the zero
`reflect.Value` prints the fixed angle-bracket text, nil prints as nil. -/
def fmtGoAny : GoAny → String
  | .goNil => "<nil>"
  | .reflectVal v => v
  | .reflectInvalid => "<invalid reflect.Value>"

/-- `key(field, value)` from `indexing.go`: `fmt.Sprintf("%s:%v", field, value)`
applied to a boxed reflection result. -/
def key (field : String) (value : GoAny) : String :=
  field ++ ":" ++ fmtGoAny value

/-- `key(field, value)` applied to a plain Go string value (the `GetIndexed`
argument and the old field values recovered by `Update`): `%v` of a string is
the string itself. -/
def keyStr (field : String) (v : String) : String :=
  field ++ ":" ++ v

/-- JSON encoding of a record argument: marshalling a struct or a pointer to a
struct produces the bytes of the underlying struct; other shapes are not
reached behind the record-type validation. -/
def structOf : GoValue → Option GoStruct
  | .structVal s => some s
  | .ptrVal s => some s
  | _ => none

/-- The Collection state relevant to the claims: the `initialized` flag, the
configured `Indexing.Fields`, the in-memory `Indexing.Indexes`, the on-disk
index file, and the record files of the collection directory in traversal
order. -/
structure Collection where
  initialized : Bool
  fields : List String
  indexes : IndexTable
  diskIndex : DiskIndex
  files : List (String × RecFile)
deriving DecidableEq, Repr

/-- The per-field loop of `Create`: skip a nil field value, reject when the
`(field, value)` key is already indexed, otherwise `setIndex` — insert the
mapping and persist the whole `Indexing` struct (the save error is discarded
by `Create`).  `none` is a reflect panic inside `getFieldValue`. -/
def createFields (data : GoValue) (id : String) (cfg : List String) :
    List String → IndexTable → DiskIndex → Option (IndexTable × DiskIndex × Option SdError)
  | [], idx, dsk => some (idx, dsk, none)
  | fld :: rest, idx, dsk =>
    match getFieldValue data fld with
    | none => none
    | some GoAny.goNil => createFields data id cfg rest idx dsk
    | some gv =>
      if (alookup idx (key fld gv)).isSome then
        some (idx, dsk, some (SdError.indexedValueNotUnique fld))
      else
        let idx2 := ainsert idx (key fld gv) id
        createFields data id cfg rest idx2 (some (cfg, idx2))

/-- `Create(id, data)` from `indexing.go`: initialization gate, record-type
validation, id-uniqueness check against the record files, encoding, the
per-field index loop, and finally the record-file write.  The collection
state is returned alongside the error so that partial mutations are visible. -/
def Collection.create (c : Collection) (id : String) (data : GoValue) :
    Option (Collection × Except SdError Unit) :=
  if !c.initialized then some (c, Except.error SdError.notInitialized) else
  match checkRecordType data with
  | none => none
  | some false => some (c, Except.error SdError.invalidRecordType)
  | some true =>
    if (alookup c.files id).isSome then some (c, Except.error SdError.idNotUnique) else
    match structOf data with
    | none => some (c, Except.error SdError.encodeFailed)
    | some s =>
      match createFields data id c.fields c.fields c.indexes c.diskIndex with
      | none => none
      | some (idx2, dsk2, some e) =>
        some ({ c with indexes := idx2, diskIndex := dsk2 }, Except.error e)
      | some (idx2, dsk2, none) =>
        let c2 := { c with indexes := idx2, diskIndex := dsk2 }
        some ({ c2 with files := ainsert c.files id (RecFile.good s) }, Except.ok ())

/-- `Get(id, dest)` from `indexing.go`: initialization gate, destination-type
validation, existence check, then load and decode of the record file. -/
def Collection.get (c : Collection) (id : String) (dest : GoValue) :
    Option (Except SdError GoStruct) :=
  if !c.initialized then some (Except.error SdError.notInitialized) else
  match checkRecordType dest with
  | none => none
  | some false => some (Except.error SdError.invalidRecordType)
  | some true =>
    match alookup c.files id with
    | none => some (Except.error SdError.notFound)
    | some (RecFile.good s) => some (Except.ok s)
    | some RecFile.corrupt => some (Except.error SdError.decodeFailed)

/-- `GetIndexed(field, v, dest)` from `indexing.go`: the `(field, v)` key is
looked up in the in-memory index table; a miss is `NotFound`, a hit loads and
decodes the mapped record file. -/
def Collection.getIndexed (c : Collection) (field : String) (v : String) (dest : GoValue) :
    Option (Except SdError GoStruct) :=
  if !c.initialized then some (Except.error SdError.notInitialized) else
  match checkRecordType dest with
  | none => none
  | some false => some (Except.error SdError.invalidRecordType)
  | some true =>
    match alookup c.indexes (keyStr field v) with
    | none => some (Except.error SdError.notFound)
    | some id =>
      match alookup c.files id with
      | none => some (Except.error SdError.loadFailed)
      | some (RecFile.good s) => some (Except.ok s)
      | some RecFile.corrupt => some (Except.error SdError.decodeFailed)

/-- The decoder configurations of the repository, as far as `Update` can
observe them: `DecodeFunc(json.Unmarshal)` — `newCollection`'s own default,
installed by the `WithJSONEncoding` store option — decodes a record into a
nil `any` as a `map[string]any`; the ugorji `CodecEncoder` handles — CBOR,
which `New` installs as the store default through `WithCborEncoding`, plus
msgpack and binc — decode it as a `map[interface{}]interface{}`.  All of
them round-trip a flat string-field struct exactly, so no other modelled
operation depends on the choice. -/
inductive Codec where
  | jsonCodec
  | cborCodec
deriving DecidableEq, Repr

/-- `Update`'s `oldRec.(map[string]any)` type assertion applied to the old
record decoded into a nil `any`: under the JSON codec the assertion succeeds
and yields the struct's field map (JSON object keys are the exported field
names); under the ugorji handles the decoded value is a
`map[interface{}]interface{}` and the assertion fails, leaving `oldValsOk`
false. -/
def oldRecValues : Codec → GoStruct → Option (List (String × String))
  | Codec.jsonCodec, oldS => some oldS.fields
  | Codec.cborCodec, _ => none

/-- The per-field loop of `Update`: `oldVals` is the result of the
`map[string]any` assertion on the decoded old record (`none` when it
failed); the stale `(field, old_value)` key is deleted only when `oldValsOk`
and the map holds the field (without a save), then the new value is indexed
through `setIndex` (insert plus whole-table persist; the save error is
discarded). -/
def updateFields (data : GoValue) (oldVals : Option (List (String × String)))
    (id : String) (cfg : List String) :
    List String → IndexTable → DiskIndex → Option (IndexTable × DiskIndex)
  | [], idx, dsk => some (idx, dsk)
  | fld :: rest, idx, dsk =>
    let idx1 := match oldVals with
      | none => idx
      | some oldm =>
        match alookup oldm fld with
        | some oldv => aerase idx (keyStr fld oldv)
        | none => idx
    match getFieldValue data fld with
    | none => none
    | some GoAny.goNil => updateFields data oldVals id cfg rest idx1 dsk
    | some gv =>
      let idx2 := ainsert idx1 (key fld gv) id
      updateFields data oldVals id cfg rest idx2 (some (cfg, idx2))

/-- `Update(id, data)` from `indexing.go`: initialization gate, record-type
validation, load-and-decode of the old record into a nil `any` (NotFound
when the file is absent), encoding of the new record, the per-field index
maintenance — whose view of the old values goes through the codec-dependent
`map[string]any` assertion — and the record-file overwrite. -/
def Collection.update (c : Collection) (id : String) (data : GoValue) (codec : Codec) :
    Option (Collection × Except SdError Unit) :=
  if !c.initialized then some (c, Except.error SdError.notInitialized) else
  match checkRecordType data with
  | none => none
  | some false => some (c, Except.error SdError.invalidRecordType)
  | some true =>
    match alookup c.files id with
    | none => some (c, Except.error SdError.notFound)
    | some RecFile.corrupt => some (c, Except.error SdError.decodeFailed)
    | some (RecFile.good oldS) =>
      match structOf data with
      | none => some (c, Except.error SdError.encodeFailed)
      | some s =>
        match updateFields data (oldRecValues codec oldS) id
            c.fields c.fields c.indexes c.diskIndex with
        | none => none
        | some (idx2, dsk2) =>
          let c2 := { c with indexes := idx2, diskIndex := dsk2 }
          some ({ c2 with files := ainsert c.files id (RecFile.good s) }, Except.ok ())

/-- `Delete(id)` from `indexing.go`: initialization gate, existence check,
removal of the record file (`removeOk` models whether `os.Remove` succeeds;
on failure the error returns before any index mutation), then removal of
every index entry mapped to `id` and a whole-table persist. -/
def Collection.delete (c : Collection) (id : String) (removeOk : Bool) :
    Collection × Except SdError Unit :=
  if !c.initialized then (c, Except.error SdError.notInitialized)
  else if (alookup c.files id).isNone then (c, Except.error SdError.notFound)
  else if !removeOk then (c, Except.error SdError.removeFailed)
  else
    let files2 := aerase c.files id
    let idx2 := aremoveVal c.indexes id
    ({ c with files := files2, indexes := idx2, diskIndex := some (c.fields, idx2) },
      Except.ok ())

/-- The directory walk of `Query`: directories and non-record files are
skipped, each record file is decoded into a fresh record instance, and a
decode failure is returned from the walk function, aborting the whole scan;
matches accumulate in traversal order. -/
def queryWalk (f : GoStruct → Bool) : List (String × RecFile) → List GoStruct →
    Except SdError (List GoStruct)
  | [], acc => Except.ok acc
  | (_, RecFile.corrupt) :: _, _ => Except.error SdError.decodeFailed
  | (_, RecFile.good s) :: rest, acc =>
    queryWalk f rest (if f s then acc ++ [s] else acc)

/-- `Query(f)` from `indexing.go`. -/
def Collection.query (c : Collection) (f : GoStruct → Bool) :
    Except SdError (List GoStruct) :=
  if !c.initialized then Except.error SdError.notInitialized
  else queryWalk f c.files []

/-- Go integer division: panics (`none`) on a zero divisor, otherwise
truncates toward zero. -/
def goDiv (a b : Int) : Option Int :=
  if b = 0 then none else some (Int.tdiv a b)

/-- Go slice expression `l[lo:hi]`: panics (`none`) unless
`0 ≤ lo ≤ hi ≤ len(l)`. -/
def goSlice {α : Type} (l : List α) (lo hi : Int) : Option (List α) :=
  if 0 ≤ lo ∧ lo ≤ hi ∧ hi ≤ (l.length : Int) then
    some ((l.drop lo.toNat).take (hi - lo).toNat)
  else none

/-- The pagination tail of `QueryPaginated`, applied to the query result:
return everything with zero pages when both arguments are zero, otherwise
compute `pages = count/rows` rounded up (the division panics on `rows == 0`),
clamp a too-large page down to `pages`, and take the slice
`recs[(page*rows)-rows : min(page*rows, count)]` (the slice expression panics
on out-of-range bounds). -/
def paginate (recs : List GoStruct) (page rows : Int) : Option (List GoStruct × Int) :=
  if page = 0 ∧ rows = 0 then some (recs, 0) else
  match goDiv (recs.length : Int) rows with
  | none => none
  | some d =>
    let pages := if Int.tmod (recs.length : Int) rows ≠ 0 then d + 1 else d
    let page1 := if page > pages then pages else page
    match goSlice recs (page1 * rows - rows) (if page1 * rows > (recs.length : Int)
        then (recs.length : Int) else page1 * rows) with
    | none => none
    | some l => some (l, pages)

/-- `QueryPaginated(f, page, rows)` from `indexing.go`: the initialization
gate, the full query, and the pagination of its result. -/
def Collection.queryPaginated (c : Collection) (f : GoStruct → Bool)
    (page rows : Int) : Option (Except SdError (List GoStruct × Int)) :=
  if !c.initialized then some (Except.error SdError.notInitialized) else
  match c.query f with
  | Except.error e => some (Except.error e)
  | Except.ok recs => (paginate recs page rows).map Except.ok

/-- `reflect.ValueOf(rec).Field(0).String()` during reindexing, for a struct
record with string fields: the first field value, or a panic on a field-less
struct. -/
def firstFieldString (s : GoStruct) : Option String :=
  (s.fields.head?).map (fun p => p.2)

/-- The per-record loop of `recreateIndexes`: for each configured field,
extract the value through `getFieldValue` (the record here is the pointer
produced by `reflect.New`), skip the whole file when the value is nil or the
id is empty, otherwise insert `(field, value) → id` into the new table.  The
returned flag records whether the loop ran to completion (so that the
`c.Indexing.Indexes = newIndexes` assignment at the end of the walk function
is reached). -/
def recreateLoop (rec : GoValue) : List String → IndexTable → Option (IndexTable × Bool)
  | [], acc => some (acc, true)
  | fld :: rest, acc =>
    match getFieldValue rec fld with
    | none => none
    | some GoAny.goNil => some (acc, false)
    | some gv =>
      match rec with
      | GoValue.structVal s =>
        match firstFieldString s with
        | none => none
        | some id =>
          if id = "" then some (acc, false)
          else recreateLoop rec rest (ainsert acc (key fld gv) id)
      | _ => none

/-- The directory walk of `recreateIndexes`: corrupt record files are skipped
best-effort, a decodable file is processed by `recreateLoop` on the pointer
`reflect.New(c.record).Interface()`, and only a completed loop reaches the
assignment replacing `c.Indexing.Indexes` with the shared `newIndexes` map. -/
def recreateWalk (flds : List String) :
    List (String × RecFile) → IndexTable → IndexTable → Option IndexTable
  | [], cur, _ => some cur
  | (_, RecFile.corrupt) :: rest, cur, newIdx => recreateWalk flds rest cur newIdx
  | (_, RecFile.good s) :: rest, cur, newIdx =>
    match recreateLoop (GoValue.ptrVal s) flds newIdx with
    | none => none
    | some (newIdx2, true) => recreateWalk flds rest newIdx2 newIdx2
    | some (newIdx2, false) => recreateWalk flds rest cur newIdx2

/-- `Init()` from `indexing.go`: reject a second initialization, snapshot the
configured indexed fields, load the index file when present (overwriting
`Indexing.Fields` and `Indexing.Indexes` with the persisted ones), compare
configured against loaded fields, run `recreateIndexes` on a difference, and
mark the collection initialized. -/
def Collection.init (c : Collection) : Option (Except SdError Collection) :=
  if c.initialized then some (Except.error SdError.alreadyInitialized) else
  let cfg := c.fields
  let c1 : Collection :=
    match c.diskIndex with
    | some (df, di) => { c with fields := df, indexes := di }
    | none => c
  if cfg = c1.fields then some (Except.ok { c1 with initialized := true })
  else
    match recreateWalk c1.fields c1.files c1.indexes [] with
    | none => none
    | some idx2 => some (Except.ok { c1 with indexes := idx2, initialized := true })

/-- The records of a full-collection scan that decode and satisfy the
predicate, in traversal order: the reference result a best-effort scan
would return. -/
def matched (f : GoStruct → Bool) : List (String × RecFile) → List GoStruct
  | [] => []
  | (_, RecFile.good s) :: rest => if f s then s :: matched f rest else matched f rest
  | (_, RecFile.corrupt) :: rest => matched f rest

/-- A collection directory in which every record file decodes. -/
def allGood (c : Collection) : Bool :=
  c.files.all (fun p => match p.2 with | RecFile.good _ => true | RecFile.corrupt => false)

/-- A collection directory containing at least one corrupt record file. -/
def hasCorrupt (c : Collection) : Bool :=
  c.files.any (fun p => match p.2 with | RecFile.good _ => false | RecFile.corrupt => true)

/-- A field name that contains no colon, so that its composite keys never
collide with those of a different field (the `%s:%v` key format is ambiguous
for field names containing the separator). -/
def goodField (f : String) : Prop := (':' : Char) ∉ f.data

instance (f : String) : Decidable (goodField f) := by
  unfold goodField; infer_instance

/-- The pagination policy stated by the spec: `pages = ceil(count / rows)`
for a positive row count. -/
def specPages (count rows : Nat) : Nat := (count + rows - 1) / rows

/-- The slice stated by the spec: clamp the requested page to `pages`, then
return `result[(page-1)*rows : min(page*rows, count)]`. -/
def specSlice (recs : List GoStruct) (page rows : Nat) : List GoStruct :=
  (recs.drop ((min page (specPages recs.length rows) - 1) * rows)).take
    (min (min page (specPages recs.length rows) * rows) recs.length -
      (min page (specPages recs.length rows) - 1) * rows)

/-! Concrete collections and records used to evaluate the claims. -/

/-- An initialized collection with no indexed fields and one record file. -/
def exC1 : Collection :=
  { initialized := true, fields := [], indexes := [], diskIndex := none,
    files := [("1", RecFile.good ⟨[("ID", "1"), ("Email", "a@x")]⟩)] }

/-- An initialized collection indexed on Email holding record 1. -/
def exC2 : Collection :=
  { initialized := true, fields := ["Email"],
    indexes := [("Email:a@x", "1")],
    diskIndex := some (["Email"], [("Email:a@x", "1")]),
    files := [("1", RecFile.good ⟨[("ID", "1"), ("Email", "a@x")]⟩)] }

/-- Record 1 with its Email changed from a@x to n@x. -/
def exC2new : GoStruct := ⟨[("ID", "1"), ("Email", "n@x")]⟩

/-- An initialized collection with two indexed fields holding record 1. -/
def exC3 : Collection :=
  { initialized := true, fields := ["F1", "F2"],
    indexes := [("F1:a", "1"), ("F2:b", "1")],
    diskIndex := some (["F1", "F2"], [("F1:a", "1"), ("F2:b", "1")]),
    files := [("1", RecFile.good ⟨[("ID", "1"), ("F1", "a"), ("F2", "b")]⟩)] }

/-- A second record whose F1 value is fresh but whose F2 value duplicates
record 1. -/
def exC3data : GoValue := GoValue.structVal ⟨[("ID", "2"), ("F1", "c"), ("F2", "b")]⟩

/-- The collection state left behind by the failing Create of `exC3data`:
the F1 mapping of the rejected record is retained in memory and on disk. -/
def exC3post : Collection :=
  { initialized := true, fields := ["F1", "F2"],
    indexes := [("F1:c", "2"), ("F1:a", "1"), ("F2:b", "1")],
    diskIndex := some (["F1", "F2"], [("F1:c", "2"), ("F1:a", "1"), ("F2:b", "1")]),
    files := [("1", RecFile.good ⟨[("ID", "1"), ("F1", "a"), ("F2", "b")]⟩)] }

/-- A single-indexed-field collection holding record 1. -/
def exC3single : Collection :=
  { initialized := true, fields := ["F1"],
    indexes := [("F1:a", "1")],
    diskIndex := some (["F1"], [("F1:a", "1")]),
    files := [("1", RecFile.good ⟨[("ID", "1"), ("F1", "a")]⟩)] }

/-- A second record duplicating the single indexed value of record 1. -/
def exC3singleData : GoValue := GoValue.structVal ⟨[("ID", "2"), ("F1", "a")]⟩

/-- A not-yet-initialized collection configured to index Email over a
directory whose persisted index file was written with fields [Name]. -/
def exC4 : Collection :=
  { initialized := false, fields := ["Email"], indexes := [],
    diskIndex := some (["Name"], [("Name:Test", "1")]),
    files := [("1", RecFile.good ⟨[("ID", "1"), ("Name", "Test"), ("Email", "a@x")]⟩)] }

/-- The same directory reopened with the identical indexed-fields list. -/
def exC4same : Collection := { exC4 with fields := ["Name"] }

/-- An initialized collection with one decodable and one corrupt record file. -/
def exC5 : Collection :=
  { initialized := true, fields := [], indexes := [], diskIndex := none,
    files := [("1", RecFile.good ⟨[("ID", "1")]⟩), ("2", RecFile.corrupt)] }

/-- A struct with an ID and an Email field. -/
def exC6s : GoStruct := ⟨[("ID", "1"), ("Email", "a@x")]⟩

/-- An initialized collection indexed on field F. -/
def exC6c : Collection :=
  { initialized := true, fields := ["F"], indexes := [], diskIndex := none, files := [] }

/-- A record that lacks the indexed field F. -/
def exC6missing : GoValue := GoValue.structVal ⟨[("ID", "1"), ("G", "x")]⟩

/-- An initialized collection with no record files (zero matches). -/
def exC7 : Collection :=
  { initialized := true, fields := [], indexes := [], diskIndex := none, files := [] }

/-- An initialized collection with two record files. -/
def exC7w : Collection :=
  { initialized := true, fields := [], indexes := [], diskIndex := none,
    files := [("1", RecFile.good ⟨[("ID", "1")]⟩), ("2", RecFile.good ⟨[("ID", "2")]⟩)] }

/-- An empty initialized collection indexed on Email. -/
def exC8 : Collection :=
  { initialized := true, fields := ["Email"], indexes := [], diskIndex := none, files := [] }

/-- A record with ID, Name and Email fields. -/
def exC8s : GoStruct := ⟨[("ID", "1"), ("Name", "Test"), ("Email", "a@x")]⟩

/-- An initialized collection indexed on Email holding record 1. -/
def exC9 : Collection :=
  { initialized := true, fields := ["Email"],
    indexes := [("Email:a@x", "1")],
    diskIndex := some (["Email"], [("Email:a@x", "1")]),
    files := [("1", RecFile.good ⟨[("ID", "1"), ("Email", "a@x")]⟩)] }

/-- An initialized collection indexed on Email holding record 1, used for the
failing-removal scenario. -/
def exC10 : Collection :=
  { initialized := true, fields := ["Email"],
    indexes := [("Email:a@x", "1")],
    diskIndex := some (["Email"], [("Email:a@x", "1")]),
    files := [("1", RecFile.good ⟨[("ID", "1"), ("Email", "a@x")]⟩)] }


section Lemmas

theorem alookup_aerase {β : Type} (m : List (String × β)) (k k2 : String) :
    alookup (aerase m k) k2 = if k2 = k then none else alookup m k2 := by
  induction m with
  | nil => simp [aerase, alookup]
  | cons p rest ih =>
    obtain ⟨a, b⟩ := p
    by_cases hak : a = k
    · subst hak
      have h1 : aerase ((a, b) :: rest) a = aerase rest a := by simp [aerase]
      rw [h1, ih]
      by_cases hk2 : k2 = a
      · simp [hk2]
      · simp [alookup, hk2]
    · have h1 : aerase ((a, b) :: rest) k = (a, b) :: aerase rest k := by simp [aerase, hak]
      rw [h1]
      by_cases hk2a : k2 = a
      · subst hk2a
        simp [alookup, hak]
      · simp [alookup, hk2a, ih]

theorem alookup_ainsert {β : Type} (m : List (String × β)) (k : String) (v : β) (k2 : String) :
    alookup (ainsert m k v) k2 = if k2 = k then some v else alookup m k2 := by
  unfold ainsert
  by_cases h : k2 = k
  · simp [alookup, h]
  · simp [alookup, h, alookup_aerase]

theorem alookup_aremoveVal_ne (m : IndexTable) (id k : String) :
    alookup (aremoveVal m id) k ≠ some id := by
  induction m with
  | nil => simp [aremoveVal, alookup]
  | cons p rest ih =>
    obtain ⟨a, b⟩ := p
    by_cases hb : b = id
    · simpa [aremoveVal, hb] using ih
    · simp only [aremoveVal, if_neg hb, alookup]
      by_cases hk : k = a
      · simp [hk, hb]
      · simp [hk, ih]

theorem mem_aremoveVal_ne (m : IndexTable) (id : String) :
    ∀ p ∈ aremoveVal m id, p.2 ≠ id := by
  induction m with
  | nil => simp [aremoveVal]
  | cons q rest ih =>
    obtain ⟨a, b⟩ := q
    by_cases hb : b = id
    · simpa [aremoveVal, hb] using ih
    · simp only [aremoveVal, if_neg hb]
      intro p hp
      rcases List.mem_cons.mp hp with h | h
      · subst h; exact hb
      · exact ih p h

theorem string_eq_of_data (a b : String) (h : a.data = b.data) : a = b := by
  cases a; cases b; exact congrArg String.mk h

theorem list_sep_inj : ∀ (a : List Char), (':' : Char) ∉ a → ∀ (b : List Char), (':' : Char) ∉ b →
    ∀ (v w : List Char), a ++ ':' :: v = b ++ ':' :: w → a = b ∧ v = w := by
  intro a
  induction a with
  | nil =>
    intro _ b hb v w h
    cases b with
    | nil => simpa using h
    | cons x xs =>
      simp only [List.nil_append, List.cons_append, List.cons.injEq] at h
      exact absurd (h.1 ▸ List.mem_cons_self x xs) hb
  | cons x xs ih =>
    intro ha b hb v w h
    cases b with
    | nil =>
      simp only [List.cons_append, List.nil_append, List.cons.injEq] at h
      exact absurd (h.1 ▸ List.mem_cons_self x xs) ha
    | cons y ys =>
      simp only [List.cons_append, List.cons.injEq] at h
      have ha2 : (':' : Char) ∉ xs := fun hm => ha (List.mem_cons_of_mem x hm)
      have hb2 : (':' : Char) ∉ ys := fun hm => hb (List.mem_cons_of_mem y hm)
      obtain ⟨h1, h2⟩ := ih ha2 ys hb2 v w h.2
      exact ⟨by rw [h.1, h1], h2⟩

theorem keyStr_data (f v : String) : (keyStr f v).data = f.data ++ ':' :: v.data := by
  unfold keyStr
  rw [String.data_append, String.data_append]
  simp

theorem keyStr_inj {f g v w : String} (hf : goodField f) (hg : goodField g)
    (h : keyStr f v = keyStr g w) : f = g ∧ v = w := by
  have hd := congrArg String.data h
  rw [keyStr_data, keyStr_data] at hd
  obtain ⟨h1, h2⟩ := list_sep_inj f.data hf g.data hg v.data w.data hd
  exact ⟨string_eq_of_data _ _ h1, string_eq_of_data _ _ h2⟩

theorem keyStr_field_ne {f g : String} (hf : goodField f) (hg : goodField g)
    (hne : f ≠ g) (v w : String) : keyStr f v ≠ keyStr g w := by
  intro h
  exact hne (keyStr_inj hf hg h).1

theorem keyStr_val_inj {f v w : String} (h : keyStr f v = keyStr f w) : v = w := by
  have hd := congrArg String.data h
  rw [keyStr_data, keyStr_data] at hd
  have := List.append_cancel_left hd
  exact string_eq_of_data _ _ (List.cons.injEq .. ▸ this).2

theorem key_eq_keyStr (f : String) (gv : GoAny) : key f gv = keyStr f (fmtGoAny gv) := rfl

theorem fieldByName_ne_goNil (s : GoStruct) (fld : String) :
    fieldByName s fld ≠ GoAny.goNil := by
  unfold fieldByName
  cases alookup s.fields fld <;> simp

theorem queryWalk_allGood (f : GoStruct → Bool) :
    ∀ (l : List (String × RecFile)) (acc : List GoStruct),
      (∀ p ∈ l, ∃ s, p.2 = RecFile.good s) →
      queryWalk f l acc = Except.ok (acc ++ matched f l) := by
  intro l
  induction l with
  | nil => intro acc _; simp [queryWalk, matched]
  | cons p rest ih =>
    intro acc hgood
    obtain ⟨n, rf⟩ := p
    obtain ⟨s, hs⟩ := hgood (n, rf) (List.mem_cons_self _ _)
    simp only at hs
    subst hs
    simp only [queryWalk, matched]
    rw [ih _ (fun q hq => hgood q (List.mem_cons_of_mem _ hq))]
    by_cases hf : f s
    · simp [hf]
    · simp [hf]

theorem queryWalk_corrupt (f : GoStruct → Bool) :
    ∀ (l : List (String × RecFile)) (acc : List GoStruct),
      (∃ p ∈ l, p.2 = RecFile.corrupt) →
      queryWalk f l acc = Except.error SdError.decodeFailed := by
  intro l
  induction l with
  | nil => rintro acc ⟨p, hp, _⟩; exact absurd hp (List.not_mem_nil p)
  | cons p rest ih =>
    rintro acc ⟨q, hq, hcorr⟩
    obtain ⟨n, rf⟩ := p
    cases rf with
    | corrupt => rfl
    | good s =>
      rcases List.mem_cons.mp hq with h | h
      · subst h; simp at hcorr
      · exact ih _ ⟨q, h, hcorr⟩

theorem allGood_spec (c : Collection) (h : allGood c = true) :
    ∀ p ∈ c.files, ∃ s, p.2 = RecFile.good s := by
  intro p hp
  have := List.all_eq_true.mp h p hp
  cases hrf : p.2 with
  | good s => exact ⟨s, rfl⟩
  | corrupt => rw [hrf] at this; simp at this

theorem hasCorrupt_spec (c : Collection) (h : hasCorrupt c = true) :
    ∃ p ∈ c.files, p.2 = RecFile.corrupt := by
  obtain ⟨p, hp, hm⟩ := List.any_eq_true.mp h
  refine ⟨p, hp, ?_⟩
  cases hrf : p.2 with
  | good s => rw [hrf] at hm; simp at hm
  | corrupt => rfl

theorem query_allGood (c : Collection) (f : GoStruct → Bool)
    (hInit : c.initialized = true) (hGood : allGood c = true) :
    c.query f = Except.ok (matched f c.files) := by
  unfold Collection.query
  rw [hInit]
  simpa using queryWalk_allGood f c.files [] (allGood_spec c hGood)


theorem alookup_aerase_foreign (idx : IndexTable) (k q : String) (hne : k ≠ q) :
    alookup (aerase idx k) q = alookup idx q := by
  rw [alookup_aerase, if_neg (fun h => hne h.symm)]

theorem alookup_ainsert_foreign (idx : IndexTable) (k v q : String) (hne : k ≠ q) :
    alookup (ainsert idx k v) q = alookup idx q := by
  rw [alookup_ainsert, if_neg (fun h => hne h.symm)]

theorem alookup_ainsert_id (idx : IndexTable) (k q id : String)
    (h : alookup idx q = some id) :
    alookup (ainsert idx k id) q = some id := by
  rw [alookup_ainsert]
  by_cases hq : q = k
  · rw [if_pos hq]
  · rw [if_neg hq]; exact h

theorem updateFields_preserve (s : GoStruct) (oldVals : Option (List (String × String)))
    (id field oldV newV : String) (cfg : List String) (hfield : goodField field)
    (w : Option String) :
    ∀ (flds : List String) (idx : IndexTable) (dsk : DiskIndex),
      (∀ f ∈ flds, goodField f ∧ f ≠ field) →
      alookup idx (keyStr field newV) = some id →
      alookup idx (keyStr field oldV) = w →
      ∃ idx2 dsk2,
        updateFields (GoValue.structVal s) oldVals id cfg flds idx dsk = some (idx2, dsk2) ∧
        alookup idx2 (keyStr field newV) = some id ∧
        alookup idx2 (keyStr field oldV) = w := by
  rcases oldVals with _ | oldm
  · intro flds
    induction flds with
    | nil => intro idx dsk _ h1 h2; exact ⟨idx, dsk, rfl, h1, h2⟩
    | cons fld rest ih =>
      intro idx dsk hflds h1 h2
      obtain ⟨hgf, hne⟩ := hflds fld (List.mem_cons_self _ _)
      have hrest := fun f hf => hflds f (List.mem_cons_of_mem _ hf)
      have hkn : ∀ u, keyStr fld u ≠ keyStr field newV := fun u =>
        keyStr_field_ne hgf hfield hne u newV
      have hko : ∀ u, keyStr fld u ≠ keyStr field oldV := fun u =>
        keyStr_field_ne hgf hfield hne u oldV
      rcases hfb : fieldByName s fld with _ | v | _
      · exact absurd hfb (fieldByName_ne_goNil s fld)
      · simp only [updateFields, getFieldValue, hfb, key_eq_keyStr, fmtGoAny]
        exact ih _ _ hrest
          (by rw [alookup_ainsert_foreign _ _ _ _ (hkn v)]; exact h1)
          (by rw [alookup_ainsert_foreign _ _ _ _ (hko v)]; exact h2)
      · simp only [updateFields, getFieldValue, hfb, key_eq_keyStr, fmtGoAny]
        exact ih _ _ hrest
          (by rw [alookup_ainsert_foreign _ _ _ _ (hkn _)]; exact h1)
          (by rw [alookup_ainsert_foreign _ _ _ _ (hko _)]; exact h2)
  · intro flds
    induction flds with
    | nil => intro idx dsk _ h1 h2; exact ⟨idx, dsk, rfl, h1, h2⟩
    | cons fld rest ih =>
      intro idx dsk hflds h1 h2
      obtain ⟨hgf, hne⟩ := hflds fld (List.mem_cons_self _ _)
      have hrest := fun f hf => hflds f (List.mem_cons_of_mem _ hf)
      have hkn : ∀ u, keyStr fld u ≠ keyStr field newV := fun u =>
        keyStr_field_ne hgf hfield hne u newV
      have hko : ∀ u, keyStr fld u ≠ keyStr field oldV := fun u =>
        keyStr_field_ne hgf hfield hne u oldV
      rcases hfb : fieldByName s fld with _ | v | _
      · exact absurd hfb (fieldByName_ne_goNil s fld)
      · rcases holdv : alookup oldm fld with _ | oldv
        · simp only [updateFields, holdv, getFieldValue, hfb, key_eq_keyStr, fmtGoAny]
          exact ih _ _ hrest
            (by rw [alookup_ainsert_foreign _ _ _ _ (hkn v)]; exact h1)
            (by rw [alookup_ainsert_foreign _ _ _ _ (hko v)]; exact h2)
        · simp only [updateFields, holdv, getFieldValue, hfb, key_eq_keyStr, fmtGoAny]
          exact ih _ _ hrest
            (by rw [alookup_ainsert_foreign _ _ _ _ (hkn v),
                    alookup_aerase_foreign _ _ _ (hkn oldv)]; exact h1)
            (by rw [alookup_ainsert_foreign _ _ _ _ (hko v),
                    alookup_aerase_foreign _ _ _ (hko oldv)]; exact h2)
      · rcases holdv : alookup oldm fld with _ | oldv
        · simp only [updateFields, holdv, getFieldValue, hfb, key_eq_keyStr, fmtGoAny]
          exact ih _ _ hrest
            (by rw [alookup_ainsert_foreign _ _ _ _ (hkn _)]; exact h1)
            (by rw [alookup_ainsert_foreign _ _ _ _ (hko _)]; exact h2)
        · simp only [updateFields, holdv, getFieldValue, hfb, key_eq_keyStr, fmtGoAny]
          exact ih _ _ hrest
            (by rw [alookup_ainsert_foreign _ _ _ _ (hkn _),
                    alookup_aerase_foreign _ _ _ (hkn oldv)]; exact h1)
            (by rw [alookup_ainsert_foreign _ _ _ _ (hko _),
                    alookup_aerase_foreign _ _ _ (hko oldv)]; exact h2)

theorem updateFields_establish_json (s : GoStruct) (oldm : List (String × String))
    (id field oldV newV : String)
    (cfg : List String) (hfield : goodField field)
    (hOldVal : alookup oldm field = some oldV)
    (hNewVal : alookup s.fields field = some newV)
    (hNe : oldV ≠ newV) :
    ∀ (flds : List String) (idx : IndexTable) (dsk : DiskIndex),
      (∀ f ∈ flds, goodField f) →
      field ∈ flds →
      ∃ idx2 dsk2,
        updateFields (GoValue.structVal s) (some oldm) id cfg flds idx dsk
          = some (idx2, dsk2) ∧
        alookup idx2 (keyStr field newV) = some id ∧
        alookup idx2 (keyStr field oldV) = none := by
  intro flds
  induction flds with
  | nil => intro idx dsk _ hmem; exact absurd hmem (List.not_mem_nil field)
  | cons fld rest ih =>
    intro idx dsk hflds hmem
    have hrestgood := fun f hf => hflds f (List.mem_cons_of_mem _ hf)
    by_cases hmemrest : field ∈ rest
    · rcases hfb : fieldByName s fld with _ | v | _
      · exact absurd hfb (fieldByName_ne_goNil s fld)
      · rcases holdv : alookup oldm fld with _ | oldv
        · simp only [updateFields, holdv, getFieldValue, hfb]
          exact ih _ _ hrestgood hmemrest
        · simp only [updateFields, holdv, getFieldValue, hfb]
          exact ih _ _ hrestgood hmemrest
      · rcases holdv : alookup oldm fld with _ | oldv
        · simp only [updateFields, holdv, getFieldValue, hfb]
          exact ih _ _ hrestgood hmemrest
        · simp only [updateFields, holdv, getFieldValue, hfb]
          exact ih _ _ hrestgood hmemrest
    · have hfldeq : fld = field := by
        rcases List.mem_cons.mp hmem with h | h
        · exact h.symm
        · exact absurd h hmemrest
      subst hfldeq
      have hfb : fieldByName s fld = GoAny.reflectVal newV := by
        unfold fieldByName; rw [hNewVal]
      have hknko : keyStr fld newV ≠ keyStr fld oldV := fun h => hNe (keyStr_val_inj h).symm
      simp only [updateFields, hOldVal, getFieldValue, hfb, key_eq_keyStr, fmtGoAny]
      exact updateFields_preserve s (some oldm) id fld oldV newV cfg hfield none rest _ _
        (fun f hf => ⟨hrestgood f hf, fun heq => hmemrest (heq ▸ hf)⟩)
        (by rw [alookup_ainsert, if_pos rfl])
        (by rw [alookup_ainsert_foreign _ _ _ _ hknko, alookup_aerase, if_pos rfl])

theorem updateFields_establish_cbor (s : GoStruct) (id field oldV newV : String)
    (cfg : List String) (hfield : goodField field)
    (hNewVal : alookup s.fields field = some newV)
    (hNe : oldV ≠ newV) :
    ∀ (flds : List String) (idx : IndexTable) (dsk : DiskIndex),
      (∀ f ∈ flds, goodField f) →
      field ∈ flds →
      alookup idx (keyStr field oldV) = some id →
      ∃ idx2 dsk2,
        updateFields (GoValue.structVal s) none id cfg flds idx dsk = some (idx2, dsk2) ∧
        alookup idx2 (keyStr field newV) = some id ∧
        alookup idx2 (keyStr field oldV) = some id := by
  intro flds
  induction flds with
  | nil => intro idx dsk _ hmem _; exact absurd hmem (List.not_mem_nil field)
  | cons fld rest ih =>
    intro idx dsk hflds hmem hold
    have hrestgood := fun f hf => hflds f (List.mem_cons_of_mem _ hf)
    by_cases hmemrest : field ∈ rest
    · rcases hfb : fieldByName s fld with _ | v | _
      · exact absurd hfb (fieldByName_ne_goNil s fld)
      · simp only [updateFields, getFieldValue, hfb]
        exact ih _ _ hrestgood hmemrest (alookup_ainsert_id idx _ _ id hold)
      · simp only [updateFields, getFieldValue, hfb]
        exact ih _ _ hrestgood hmemrest (alookup_ainsert_id idx _ _ id hold)
    · have hfldeq : fld = field := by
        rcases List.mem_cons.mp hmem with h | h
        · exact h.symm
        · exact absurd h hmemrest
      subst hfldeq
      have hfb : fieldByName s fld = GoAny.reflectVal newV := by
        unfold fieldByName; rw [hNewVal]
      have hknko : keyStr fld newV ≠ keyStr fld oldV := fun h => hNe (keyStr_val_inj h).symm
      simp only [updateFields, getFieldValue, hfb, key_eq_keyStr, fmtGoAny]
      exact updateFields_preserve s none id fld oldV newV cfg hfield (some id) rest _ _
        (fun f hf => ⟨hrestgood f hf, fun heq => hmemrest (heq ▸ hf)⟩)
        (by rw [alookup_ainsert, if_pos rfl])
        (by rw [alookup_ainsert_foreign _ _ _ _ hknko]; exact hold)

theorem createFields_success (s : GoStruct) (id : String) (cfg : List String) :
    ∀ (flds : List String) (idx : IndexTable) (dsk : DiskIndex),
      (∀ fld ∈ flds, alookup idx (key fld (fieldByName s fld)) = none) →
      (flds.map (fun fld => key fld (fieldByName s fld))).Nodup →
      ∃ idx2 dsk2,
        createFields (GoValue.structVal s) id cfg flds idx dsk = some (idx2, dsk2, none) := by
  intro flds
  induction flds with
  | nil => intro idx dsk _ _; exact ⟨idx, dsk, rfl⟩
  | cons fld rest ih =>
    intro idx dsk hfresh hnodup
    have hnodup2 : (key fld (fieldByName s fld) ∉
        rest.map (fun g => key g (fieldByName s g))) ∧
        (rest.map (fun g => key g (fieldByName s g))).Nodup := by
      rw [List.map_cons] at hnodup
      exact List.nodup_cons.mp hnodup
    rcases hfb : fieldByName s fld with _ | v | _
    · exact absurd hfb (fieldByName_ne_goNil s fld)
    · have hkhead : key fld (GoAny.reflectVal v) = key fld (fieldByName s fld) := by rw [hfb]
      have hfr : alookup idx (key fld (GoAny.reflectVal v)) = none := by
        rw [hkhead]; exact hfresh fld (List.mem_cons_self _ _)
      simp only [createFields, getFieldValue, hfb, hfr, Option.isSome_none,
        Bool.false_eq_true, if_false]
      apply ih
      · intro g hg
        have hne2 : key fld (GoAny.reflectVal v) ≠ key g (fieldByName s g) := by
          rw [hkhead]
          intro h
          exact hnodup2.1 (h ▸ List.mem_map_of_mem _ hg)
        rw [alookup_ainsert_foreign _ _ _ _ hne2]
        exact hfresh g (List.mem_cons_of_mem _ hg)
      · exact hnodup2.2
    · have hkhead : key fld GoAny.reflectInvalid = key fld (fieldByName s fld) := by rw [hfb]
      have hfr : alookup idx (key fld GoAny.reflectInvalid) = none := by
        rw [hkhead]; exact hfresh fld (List.mem_cons_self _ _)
      simp only [createFields, getFieldValue, hfb, hfr, Option.isSome_none,
        Bool.false_eq_true, if_false]
      apply ih
      · intro g hg
        have hne2 : key fld GoAny.reflectInvalid ≠ key g (fieldByName s g) := by
          rw [hkhead]
          intro h
          exact hnodup2.1 (h ▸ List.mem_map_of_mem _ hg)
        rw [alookup_ainsert_foreign _ _ _ _ hne2]
        exact hfresh g (List.mem_cons_of_mem _ hg)
      · exact hnodup2.2

theorem tdiv_coe (a b : Nat) : Int.tdiv (a : Int) (b : Int) = ((a / b : Nat) : Int) := rfl

theorem tmod_coe (a b : Nat) : Int.tmod (a : Int) (b : Int) = ((a % b : Nat) : Int) := rfl

theorem ceil_div_eq (count rows : Nat) (hr : 0 < rows) :
    (if count % rows ≠ 0 then count / rows + 1 else count / rows) =
      (count + rows - 1) / rows := by
  have h := Nat.div_add_mod count rows
  by_cases h0 : count % rows = 0
  · simp only [h0, ne_eq, not_true_eq_false, if_false]
    have hc : count + rows - 1 = (rows - 1) + rows * (count / rows) := by omega
    rw [hc, Nat.add_mul_div_left _ _ hr,
      Nat.div_eq_of_lt (show rows - 1 < rows by omega)]
    omega
  · simp only [ne_eq, h0, not_false_eq_true, if_true]
    have hlt : count % rows < rows := Nat.mod_lt _ hr
    have hms : rows * (count / rows + 1) = rows * (count / rows) + rows :=
      Nat.mul_succ rows _
    have hc : count + rows - 1 = (count % rows - 1) + rows * (count / rows + 1) := by
      rw [hms]; omega
    rw [hc, Nat.add_mul_div_left _ _ hr,
      Nat.div_eq_of_lt (show count % rows - 1 < rows by omega)]
    omega

theorem paginate_zero (recs : List GoStruct) : paginate recs 0 0 = some (recs, 0) := by
  unfold paginate
  simp

theorem paginate_pos (recs : List GoStruct) (page rows : Nat)
    (hp : 1 ≤ page) (hr : 1 ≤ rows) (hc : 1 ≤ recs.length) :
    paginate recs (page : Int) (rows : Int) =
      some (specSlice recs page rows, ((specPages recs.length rows : Nat) : Int)) := by
  have hr0 : 0 < rows := hr
  have hrz : ((rows : Int)) ≠ 0 := by
    rw [Ne, Nat.cast_eq_zero]
    omega
  have hpz : ¬(((page : Int)) = 0 ∧ ((rows : Int)) = 0) := by
    rintro ⟨h1, -⟩
    rw [Nat.cast_eq_zero] at h1
    omega
  simp only [paginate, specSlice, if_neg hpz]
  set N := recs.length with hN
  set P := specPages N rows with hP
  have hP1 : 1 ≤ P := by
    rw [hP]
    unfold specPages
    rw [Nat.one_le_div_iff hr0]
    omega
  set pg := min page P with hpg
  have hpg1 : 1 ≤ pg := le_min hp hP1
  have hpgP : pg ≤ P := min_le_right _ _
  have hA : rows ≤ pg * rows := Nat.le_mul_of_pos_left rows hpg1
  have hB : pg * rows ≤ N + rows - 1 := by
    calc pg * rows ≤ P * rows := Nat.mul_le_mul_right rows hpgP
      _ ≤ N + rows - 1 := by rw [hP]; unfold specPages; exact Nat.div_mul_le_self _ _
  have hgd : goDiv ((N : Nat) : Int) ((rows : Nat) : Int)
      = some (((N / rows : Nat) : Int)) := by
    unfold goDiv
    rw [if_neg hrz, tdiv_coe]
  simp only [hgd]
  have hpages : (if Int.tmod ((N : Nat) : Int) ((rows : Nat) : Int) ≠ 0
      then ((N / rows : Nat) : Int) + 1 else ((N / rows : Nat) : Int))
      = ((P : Nat) : Int) := by
    rw [tmod_coe, hP]
    have hPeq : specPages N rows = if N % rows ≠ 0 then N / rows + 1 else N / rows :=
      (ceil_div_eq N rows hr0).symm
    rw [hPeq]
    by_cases hm : N % rows = 0
    · simp [hm]
    · simp only [ne_eq, hm, not_false_eq_true, if_true, Nat.cast_eq_zero, if_neg hm]
      push_cast
      ring
  rw [hpages]
  have hpage1 : (if ((page : Nat) : Int) > ((P : Nat) : Int)
      then ((P : Nat) : Int) else ((page : Nat) : Int)) = ((pg : Nat) : Int) := by
    by_cases h : P < page
    · rw [if_pos (by exact_mod_cast h), hpg, min_eq_right (le_of_lt h)]
    · rw [if_neg (by exact_mod_cast h), hpg, min_eq_left (le_of_not_lt h)]
  rw [hpage1, ← Nat.cast_mul]
  have hhi : (if ((pg * rows : Nat) : Int) > ((N : Nat) : Int)
      then ((N : Nat) : Int) else ((pg * rows : Nat) : Int))
      = ((min (pg * rows) N : Nat) : Int) := by
    by_cases h : N < pg * rows
    · rw [if_pos (by exact_mod_cast h), min_eq_right (le_of_lt h)]
    · rw [if_neg (by exact_mod_cast h), min_eq_left (le_of_not_lt h)]
  rw [hhi]
  have hlo : ((pg * rows : Nat) : Int) - ((rows : Nat) : Int)
      = ((pg * rows - rows : Nat) : Int) := by
    omega
  rw [hlo]
  have hgs : goSlice recs ((pg * rows - rows : Nat) : Int) ((min (pg * rows) N : Nat) : Int)
      = some ((recs.drop (pg * rows - rows)).take (min (pg * rows) N - (pg * rows - rows))) := by
    unfold goSlice
    rw [if_pos ⟨by positivity, by exact_mod_cast (by omega : pg * rows - rows ≤ min (pg * rows) N),
      by rw [← hN]; exact_mod_cast min_le_right _ _⟩]
    rw [Int.toNat_sub]
    congr 1
  simp only [hgs]
  have hsub : (pg - 1) * rows = pg * rows - rows := Nat.sub_one_mul pg rows
  rw [hsub]

theorem queryPaginated_run (c : Collection) (f : GoStruct → Bool) (page rows : Int)
    (hInit : c.initialized = true) (recs : List GoStruct)
    (hq : c.query f = Except.ok recs) :
    c.queryPaginated f page rows = (paginate recs page rows).map Except.ok := by
  unfold Collection.queryPaginated
  rw [hInit, hq]
  simp

theorem create_run (c : Collection) (id : String) (s : GoStruct)
    (hInit : c.initialized = true) (hNotStored : alookup c.files id = none) :
    c.create id (GoValue.structVal s) =
      match createFields (GoValue.structVal s) id c.fields c.fields c.indexes c.diskIndex with
      | none => none
      | some (idx2, dsk2, some e) =>
        some ({ c with indexes := idx2, diskIndex := dsk2 }, Except.error e)
      | some (idx2, dsk2, none) =>
        some ({ c with indexes := idx2, diskIndex := dsk2, files := ainsert c.files id (RecFile.good s) }, Except.ok ()) := by
  unfold Collection.create
  rw [hInit, hNotStored]
  rfl

theorem get_run_found (c : Collection) (id : String) (s : GoStruct)
    (hInit : c.initialized = true) (hFound : alookup c.files id = some (RecFile.good s)) :
    c.get id (GoValue.ptrVal ⟨[]⟩) = some (Except.ok s) := by
  unfold Collection.get
  rw [hInit, hFound]
  rfl

theorem get_run_missing (c : Collection) (id : String)
    (hInit : c.initialized = true) (hMiss : alookup c.files id = none) :
    c.get id (GoValue.ptrVal ⟨[]⟩) = some (Except.error SdError.notFound) := by
  unfold Collection.get
  rw [hInit, hMiss]
  rfl

theorem update_run (c : Collection) (id : String) (s oldS : GoStruct) (codec : Codec)
    (hInit : c.initialized = true)
    (hOld : alookup c.files id = some (RecFile.good oldS)) :
    c.update id (GoValue.structVal s) codec =
      match updateFields (GoValue.structVal s) (oldRecValues codec oldS) id c.fields c.fields c.indexes c.diskIndex with
      | none => none
      | some (idx2, dsk2) =>
        some ({ c with indexes := idx2, diskIndex := dsk2, files := ainsert c.files id (RecFile.good s) }, Except.ok ()) := by
  unfold Collection.update
  rw [hInit, hOld]
  rfl

theorem getIndexed_run_hit (c : Collection) (field v id : String) (s : GoStruct)
    (hInit : c.initialized = true)
    (hIdx : alookup c.indexes (keyStr field v) = some id)
    (hFile : alookup c.files id = some (RecFile.good s)) :
    c.getIndexed field v (GoValue.ptrVal ⟨[]⟩) = some (Except.ok s) := by
  unfold Collection.getIndexed
  rw [hInit]
  simp only [hIdx, hFile]
  rfl

theorem getIndexed_run_miss (c : Collection) (field v : String)
    (hInit : c.initialized = true)
    (hIdx : alookup c.indexes (keyStr field v) = none) :
    c.getIndexed field v (GoValue.ptrVal ⟨[]⟩) = some (Except.error SdError.notFound) := by
  unfold Collection.getIndexed
  rw [hInit]
  simp only [hIdx]
  rfl

theorem delete_run (c : Collection) (id : String)
    (hInit : c.initialized = true)
    (hStored : (alookup c.files id).isSome = true) :
    c.delete id true = ({ c with files := aerase c.files id, indexes := aremoveVal c.indexes id, diskIndex := some (c.fields, aremoveVal c.indexes id) }, Except.ok ()) := by
  have hnn : (alookup c.files id).isNone = false := by
    rcases hx : alookup c.files id with _ | v
    · rw [hx] at hStored; simp at hStored
    · rfl
  unfold Collection.delete
  rw [hInit, hnn]
  rfl

end Lemmas

section Claims

/-- C1: the claim states that `QueryPaginated` with `rows == 0` and
`page != 0` is guarded and fails with an InvalidArgument-style error instead
of crashing.  The code has no such guard: on an initialized collection the
unguarded `count / rows` divides by zero and the call panics (modelled as
`none`) instead of returning any error value. -/
theorem c1_rows_zero_division_panics :
    exC1.queryPaginated (fun _ => true) 1 0 = none := rfl

/-- C4: the claim states that reopening with identical `indexed_fields`
skips the rebuild (which holds: the loaded table is kept verbatim and the
collection initializes), and that reopening with a different list rebuilds
an index equal to a from-scratch scan.  The second half fails: the rebuild
decodes each record into the pointer produced by `reflect.New` and feeds it
to `getFieldValue`, whose `FieldByName` call panics on every
pointer-to-struct value, so `Init` panics (modelled as `none`) as soon as
one decodable record file and one configured indexed field exist. -/
theorem c4_identical_no_rebuild_different_panics :
    Collection.init exC4same
        = some (Except.ok { exC4same with fields := ["Name"], indexes := [("Name:Test", "1")], initialized := true }) ∧
    Collection.init exC4 = none := ⟨rfl, rfl⟩

/-- C5 counterexample: on a collection holding one decodable record and one
corrupt record file, the claim predicts a successful scan returning the
surviving match, but `Query` returns the decode error to the caller. -/
theorem c5_counterexample :
    exC5.query (fun _ => true) = Except.error SdError.decodeFailed ∧
    exC5.query (fun _ => true) ≠ Except.ok (matched (fun _ => true) exC5.files) := by
  refine ⟨rfl, ?_⟩
  intro h
  rw [show exC5.query (fun _ => true) = Except.error SdError.decodeFailed from rfl] at h
  exact Except.noConfusion h

/-- C5 amended: a record file whose bytes fail to decode during the
full-collection scan is not skipped: `Query` aborts the walk and returns the
decode failure to the caller (the best-effort skip exists only in the index
rebuild). -/
theorem c5_query_corrupt_fails (c : Collection) (f : GoStruct → Bool)
    (hInit : c.initialized = true) (hCorrupt : hasCorrupt c = true) :
    c.query f = Except.error SdError.decodeFailed := by
  unfold Collection.query
  rw [hInit]
  exact queryWalk_corrupt f c.files [] (hasCorrupt_spec c hCorrupt)

/-- C5 witness: the amended theorem applied to the concrete two-file
collection. -/
theorem c5_witness :
    exC5.query (fun s => s.fields.length = 1) = Except.error SdError.decodeFailed :=
  c5_query_corrupt_fails exC5 (fun s => s.fields.length = 1) rfl rfl

/-- C6: the claim states that the field accessor never panics and returns
absent for missing fields, and that Create skips absent indexed fields.  The
code diverges on all three points: `getFieldValue` panics on a
pointer-to-struct argument (`FieldByName` is invoked on the pointer value
itself) and on nil, it returns a boxed zero `reflect.Value` (not nil) for a
struct lacking the field, and Create consequently indexes a record lacking
indexed field F under the literal key `F:<invalid reflect.Value>` instead of
skipping it. -/
theorem c6_field_accessor_divergence :
    getFieldValue (GoValue.ptrVal exC6s) "Email" = none ∧
    getFieldValue (GoValue.structVal exC6s) "Missing" = some GoAny.reflectInvalid ∧
    getFieldValue GoValue.goNil "Email" = none ∧
    (exC6c.create "1" exC6missing).map
        (fun p => (p.2, alookup p.1.indexes (keyStr "F" "<invalid reflect.Value>")))
      = some (Except.ok (), some "1") := ⟨rfl, rfl, rfl, rfl⟩

/-- C7 counterexample: with zero matching records, `page = 1` and `rows = 1`,
the claim predicts a returned result (`pages = ceil(0/1) = 0`), but the
clamped page 0 makes the slice lower bound `-rows` negative and the slice
expression panics (modelled as `none`); the same happens for `page = 0` with
positive `rows`. -/
theorem c7_counterexample :
    exC7.queryPaginated (fun _ => true) 1 1 = none := rfl

/-- C7 amended: on an initialized collection whose record files all decode,
`QueryPaginated(pred, 0, 0)` returns every match with `pages = 0`; and
whenever `page ≥ 1`, `rows ≥ 1` and at least one record matches, it returns
`pages = ceil(count/rows)` and the slice
`result[(page-1)*rows : min(page*rows, count)]` with the requested page
clamped down to `pages` — in particular over 2 matching records `page = 1`,
`rows = 1` yields exactly 1 record and `pages = 2`.  The original claim
fails when no record matches or when exactly one of `page`, `rows` is zero
(the code panics there). -/
theorem c7_pagination (c : Collection) (f : GoStruct → Bool)
    (hInit : c.initialized = true) (hGood : allGood c = true) :
    c.queryPaginated f 0 0 = some (Except.ok (matched f c.files, 0)) ∧
    ∀ page rows : Nat, 1 ≤ page → 1 ≤ rows → 1 ≤ (matched f c.files).length →
      c.queryPaginated f (page : Int) (rows : Int) =
        some (Except.ok (specSlice (matched f c.files) page rows,
          ((specPages (matched f c.files).length rows : Nat) : Int))) := by
  have hq := query_allGood c f hInit hGood
  constructor
  · rw [queryPaginated_run c f 0 0 hInit _ hq, paginate_zero]
    rfl
  · intro page rows hp hr hc
    rw [queryPaginated_run c f _ _ hInit _ hq, paginate_pos _ _ _ hp hr hc]
    rfl

/-- C7 witness: the amended theorem applied to a two-record collection:
page 1 with one row per page returns exactly one record and two pages, and
the zero-zero call returns both matches with zero pages. -/
theorem c7_witness :
    exC7w.queryPaginated (fun _ => true) 1 1
        = some (Except.ok ([⟨[("ID", "1")]⟩], 2)) ∧
    exC7w.queryPaginated (fun _ => true) 0 0
        = some (Except.ok ([⟨[("ID", "1")]⟩, ⟨[("ID", "2")]⟩], 0)) := by
  have h := c7_pagination exC7w (fun _ => true) rfl rfl
  refine ⟨?_, h.1⟩
  have h2 := h.2 1 1 (by decide) (by decide) (by decide)
  exact h2.trans (by rfl)

/-- C2 counterexample: under the store's default CBOR codec (installed by
`New` through `WithCborEncoding` and passed to every collection), the old
record decodes into a `map[interface{}]interface{}`, Update's
`map[string]any` assertion fails, and the stale mapping survives: after a
successful `Update` changing Email from a@x to n@x,
`GetIndexed("Email", "a@x")` does not return NotFound — it still resolves
through the retained stale key and returns the updated record. -/
theorem c2_counterexample :
    (exC2.update "1" (GoValue.structVal exC2new) Codec.cborCodec).map (fun p => p.2)
        = some (Except.ok ()) ∧
    (exC2.update "1" (GoValue.structVal exC2new) Codec.cborCodec).bind
        (fun p => some (alookup p.1.indexes (keyStr "Email" "a@x"))) = some (some "1") ∧
    (exC2.update "1" (GoValue.structVal exC2new) Codec.cborCodec).bind
        (fun p => p.1.getIndexed "Email" "a@x" (GoValue.ptrVal ⟨[]⟩))
      = some (Except.ok exC2new) :=
  ⟨rfl, rfl, rfl⟩

/-- C2 amended: on an initialized collection with colon-free indexed field
names, after `Update(id, newRecord)` succeeds on an existing indexed record
whose indexed field held `old_value` and now holds `new_value ≠ old_value`,
the index maps `(field, new_value)` to `id` under either codec; whether the
stale `(field, old_value)` mapping is removed depends on the decoder.  Under
the JSON codec (`newCollection`'s own default, or the `WithJSONEncoding`
store option) the decoded old record is a `map[string]any`, the stale key is
deleted, and `GetIndexed(field, old_value)` returns NotFound, as the original
claim states.  Under the store's default CBOR codec (likewise msgpack and
binc) the `map[string]any` assertion fails, the stale mapping is retained in
the table, and `GetIndexed(field, old_value)` still resolves to `id`,
returning the updated record. -/
theorem c2_update_stale_key (c : Collection) (id field oldV newV : String)
    (oldS s : GoStruct)
    (hInit : c.initialized = true)
    (hField : field ∈ c.fields)
    (hGoodFields : ∀ f ∈ c.fields, goodField f)
    (hOld : alookup c.files id = some (RecFile.good oldS))
    (hOldVal : alookup oldS.fields field = some oldV)
    (hOldIdx : alookup c.indexes (keyStr field oldV) = some id)
    (hNewVal : alookup s.fields field = some newV)
    (hNe : oldV ≠ newV) :
    ((c.update id (GoValue.structVal s) Codec.jsonCodec).map (fun p => p.2)
        = some (Except.ok ())) ∧
    ((c.update id (GoValue.structVal s) Codec.jsonCodec).bind
        (fun p => some (alookup p.1.indexes (keyStr field newV))) = some (some id)) ∧
    ((c.update id (GoValue.structVal s) Codec.jsonCodec).bind
        (fun p => some (alookup p.1.indexes (keyStr field oldV))) = some none) ∧
    ((c.update id (GoValue.structVal s) Codec.jsonCodec).bind
        (fun p => p.1.getIndexed field newV (GoValue.ptrVal ⟨[]⟩))
      = some (Except.ok s)) ∧
    ((c.update id (GoValue.structVal s) Codec.jsonCodec).bind
        (fun p => p.1.getIndexed field oldV (GoValue.ptrVal ⟨[]⟩))
      = some (Except.error SdError.notFound)) ∧
    ((c.update id (GoValue.structVal s) Codec.cborCodec).map (fun p => p.2)
        = some (Except.ok ())) ∧
    ((c.update id (GoValue.structVal s) Codec.cborCodec).bind
        (fun p => some (alookup p.1.indexes (keyStr field newV))) = some (some id)) ∧
    ((c.update id (GoValue.structVal s) Codec.cborCodec).bind
        (fun p => some (alookup p.1.indexes (keyStr field oldV))) = some (some id)) ∧
    ((c.update id (GoValue.structVal s) Codec.cborCodec).bind
        (fun p => p.1.getIndexed field oldV (GoValue.ptrVal ⟨[]⟩))
      = some (Except.ok s)) := by
  have hgf : goodField field := hGoodFields field hField
  obtain ⟨ji, jd, hjupd, hj1, hj2⟩ :=
    updateFields_establish_json s oldS.fields id field oldV newV c.fields hgf hOldVal
      hNewVal hNe c.fields c.indexes c.diskIndex hGoodFields hField
  have hjrun := update_run c id s oldS Codec.jsonCodec hInit hOld
  simp only [oldRecValues, hjupd] at hjrun
  obtain ⟨bi, bd, hbupd, hb1, hb2⟩ :=
    updateFields_establish_cbor s id field oldV newV c.fields hgf hNewVal hNe
      c.fields c.indexes c.diskIndex hGoodFields hField hOldIdx
  have hbrun := update_run c id s oldS Codec.cborCodec hInit hOld
  simp only [oldRecValues, hbupd] at hbrun
  have hfile : alookup (ainsert c.files id (RecFile.good s)) id = some (RecFile.good s) := by
    rw [alookup_ainsert, if_pos rfl]
  refine ⟨?_, ?_, ?_, ?_, ?_, ?_, ?_, ?_, ?_⟩
  · rw [hjrun]; rfl
  · rw [hjrun]
    exact congrArg some hj1
  · rw [hjrun]
    exact congrArg some hj2
  · rw [hjrun]
    exact getIndexed_run_hit _ field newV id s hInit hj1 hfile
  · rw [hjrun]
    exact getIndexed_run_miss _ field oldV hInit hj2
  · rw [hbrun]; rfl
  · rw [hbrun]
    exact congrArg some hb1
  · rw [hbrun]
    exact congrArg some hb2
  · rw [hbrun]
    exact getIndexed_run_hit _ field oldV id s hInit hb2 hfile

/-- C2 witness: the amended theorem applied to a concrete Email-indexed
collection where record 1 changes its Email from a@x to n@x: under the JSON
codec the stale lookup is NotFound, under the store's default CBOR codec it
still resolves, and the new value resolves under both. -/
theorem c2_witness :
    (exC2.update "1" (GoValue.structVal exC2new) Codec.jsonCodec).bind
        (fun p => p.1.getIndexed "Email" "a@x" (GoValue.ptrVal ⟨[]⟩))
      = some (Except.error SdError.notFound) ∧
    (exC2.update "1" (GoValue.structVal exC2new) Codec.cborCodec).bind
        (fun p => p.1.getIndexed "Email" "a@x" (GoValue.ptrVal ⟨[]⟩))
      = some (Except.ok exC2new) ∧
    (exC2.update "1" (GoValue.structVal exC2new) Codec.jsonCodec).bind
        (fun p => p.1.getIndexed "Email" "n@x" (GoValue.ptrVal ⟨[]⟩))
      = some (Except.ok exC2new) := by
  have h := c2_update_stale_key exC2 "1" "Email" "a@x" "n@x"
    ⟨[("ID", "1"), ("Email", "a@x")]⟩ exC2new rfl (by decide) (by decide) rfl rfl rfl rfl
    (by decide)
  exact ⟨h.2.2.2.2.1, h.2.2.2.2.2.2.2.2, h.2.2.2.1⟩

/-- C8: on an initialized collection, for a fresh id and a record whose
indexed values neither collide with the existing index table nor with each
other, `Create(id, record)` succeeds and a subsequent `Get(id)` returns a
value deep-equal to the stored record. -/
theorem c8_create_then_get (c : Collection) (id : String) (s : GoStruct)
    (hInit : c.initialized = true)
    (hid : id ≠ "")
    (hNotStored : alookup c.files id = none)
    (hFresh : ∀ fld ∈ c.fields, alookup c.indexes (key fld (fieldByName s fld)) = none)
    (hNodup : (c.fields.map (fun fld => key fld (fieldByName s fld))).Nodup) :
    (c.create id (GoValue.structVal s)).map (fun p => p.2) = some (Except.ok ()) ∧
    (c.create id (GoValue.structVal s)).bind
        (fun p => p.1.get id (GoValue.ptrVal ⟨[]⟩)) = some (Except.ok s) := by
  obtain ⟨idx2, dsk2, hcf⟩ :=
    createFields_success s id c.fields c.fields c.indexes c.diskIndex hFresh hNodup
  have hrun := create_run c id s hInit hNotStored
  rw [hcf] at hrun
  have hfile : alookup (ainsert c.files id (RecFile.good s)) id = some (RecFile.good s) := by
    rw [alookup_ainsert, if_pos rfl]
  refine ⟨?_, ?_⟩
  · rw [hrun]; rfl
  · rw [hrun]
    exact get_run_found _ id s hInit hfile

/-- C8 witness: the theorem applied to an empty Email-indexed collection and
a concrete record. -/
theorem c8_witness :
    (exC8.create "1" (GoValue.structVal exC8s)).map (fun p => p.2) = some (Except.ok ()) ∧
    (exC8.create "1" (GoValue.structVal exC8s)).bind
        (fun p => p.1.get "1" (GoValue.ptrVal ⟨[]⟩)) = some (Except.ok exC8s) :=
  c8_create_then_get exC8 "1" exC8s rfl (by decide) rfl (by decide) (by decide)

/-- C9: on an initialized collection, deleting a stored id succeeds, a
subsequent `Get(id)` returns NotFound, and no entry of the resulting
in-memory index table maps to `id`; the persisted index file holds exactly
that filtered table. -/
theorem c9_delete_removes_all (c : Collection) (id : String)
    (hInit : c.initialized = true)
    (hStored : (alookup c.files id).isSome = true) :
    (c.delete id true).2 = Except.ok () ∧
    (c.delete id true).1.get id (GoValue.ptrVal ⟨[]⟩)
      = some (Except.error SdError.notFound) ∧
    (∀ k, alookup (c.delete id true).1.indexes k ≠ some id) ∧
    (∀ p ∈ (c.delete id true).1.indexes, p.2 ≠ id) ∧
    (c.delete id true).1.diskIndex = some (c.fields, aremoveVal c.indexes id) := by
  rw [delete_run c id hInit hStored]
  refine ⟨rfl, ?_, ?_, ?_, rfl⟩
  · exact get_run_missing _ id hInit (by rw [alookup_aerase, if_pos rfl])
  · intro k
    exact alookup_aremoveVal_ne c.indexes id k
  · exact mem_aremoveVal_ne c.indexes id

/-- C9 witness: the theorem applied to an Email-indexed collection holding
record 1. -/
theorem c9_witness :
    (exC9.delete "1" true).2 = Except.ok () ∧
    (exC9.delete "1" true).1.get "1" (GoValue.ptrVal ⟨[]⟩)
      = some (Except.error SdError.notFound) ∧
    alookup (exC9.delete "1" true).1.indexes "Email:a@x" ≠ some "1" := by
  have h := c9_delete_removes_all exC9 "1" rfl rfl
  exact ⟨h.1, h.2.1, h.2.2.1 "Email:a@x"⟩

/-- C10: when the record file exists but its removal fails, `Delete` returns
the wrapped removal error immediately and the collection state — the
in-memory index table and the on-disk index file included — is exactly
unchanged (the index loop and the index save are never reached). -/
theorem c10_delete_remove_failure_keeps_state (c : Collection) (id : String)
    (hInit : c.initialized = true)
    (hStored : (alookup c.files id).isSome = true) :
    c.delete id false = (c, Except.error SdError.removeFailed) := by
  have hnn : (alookup c.files id).isNone = false := by
    rcases hx : alookup c.files id with _ | v
    · rw [hx] at hStored; simp at hStored
    · rfl
  unfold Collection.delete
  rw [hInit, hnn]
  rfl

/-- C10 witness: the theorem applied to an Email-indexed collection holding
record 1. -/
theorem c10_witness :
    exC10.delete "1" false = (exC10, Except.error SdError.removeFailed) :=
  c10_delete_remove_failure_keeps_state exC10 "1" rfl rfl

/-- C3 counterexample: with two indexed fields, Create of a second record
whose F2 value duplicates record 1 fails IndexedValueNotUnique on F2, but
the F1 mapping of the rejected record has already been inserted and
persisted: the in-memory table and the on-disk index file are not as they
were before the call. -/
theorem c3_counterexample :
    (exC3.create "2" exC3data).map (fun p => p.2)
        = some (Except.error (SdError.indexedValueNotUnique "F2")) ∧
    (exC3.create "2" exC3data).map (fun p => alookup p.1.indexes "F1:c")
        = some (some "2") ∧
    alookup exC3.indexes "F1:c" = none ∧
    (exC3.create "2" exC3data).map
        (fun p => alookup ((p.1.diskIndex.getD ([], [])).2) "F1:c")
      = some (some "2") ∧
    alookup ((exC3.diskIndex.getD ([], [])).2) "F1:c" = none :=
  ⟨rfl, rfl, rfl, rfl, rfl⟩

theorem createFields_singleton_error (data : GoValue) (id : String) (cfg : List String)
    (f : String) (idx : IndexTable) (dsk : DiskIndex)
    (idx2 : IndexTable) (dsk2 : DiskIndex) (e : SdError)
    (h : createFields data id cfg [f] idx dsk = some (idx2, dsk2, some e)) :
    idx2 = idx ∧ dsk2 = dsk := by
  rcases hgf : getFieldValue data f with _ | gv
  · simp only [createFields, hgf] at h
    exact Option.noConfusion h
  · rcases gv with _ | v | _
    · simp only [createFields, hgf] at h
      simp at h
    · simp only [createFields, hgf] at h
      by_cases hex : (alookup idx (key f (GoAny.reflectVal v))).isSome = true
      · rw [if_pos hex] at h
        simp only [Option.some.injEq, Prod.mk.injEq] at h
        exact ⟨h.1.symm, h.2.1.symm⟩
      · rw [if_neg hex] at h
        simp at h
    · simp only [createFields, hgf] at h
      by_cases hex : (alookup idx (key f GoAny.reflectInvalid)).isSome = true
      · rw [if_pos hex] at h
        simp only [Option.some.injEq, Prod.mk.injEq] at h
        exact ⟨h.1.symm, h.2.1.symm⟩
      · rw [if_neg hex] at h
        simp at h

/-- C3 amended: when Create fails with IndexedValueNotUnique, the set of
record files is unchanged (the record file is written only after the index
loop), and with a single indexed field the whole collection state is exactly
as before; but with two or more indexed fields the mappings already inserted
for fields processed before the conflicting one are retained in memory and
in the persisted index file (see the counterexample). -/
theorem c3_failed_create_state (c : Collection) (id : String) (data : GoValue)
    (c2 : Collection) (fld : String)
    (h : c.create id data = some (c2, Except.error (SdError.indexedValueNotUnique fld))) :
    c2.files = c.files ∧ (∀ f, c.fields = [f] → c2 = c) := by
  unfold Collection.create at h
  by_cases hinit : c.initialized = true
  case neg =>
    rw [if_pos (by simp [Bool.not_eq_true'] at hinit ⊢; exact hinit)] at h
    simp at h
  case pos =>
    rw [if_neg (by simp [hinit])] at h
    rcases hck : checkRecordType data with _ | b
    · simp only [hck] at h
      exact Option.noConfusion h
    · rcases b with _ | _
      · simp only [hck] at h
        simp at h
      · simp only [hck] at h
        by_cases hex : (alookup c.files id).isSome = true
        · rw [if_pos hex] at h
          simp at h
        · rw [if_neg hex] at h
          rcases hst : structOf data with _ | s
          · simp only [hst] at h
            simp at h
          · simp only [hst] at h
            rcases hcf : createFields data id c.fields c.fields c.indexes c.diskIndex
              with _ | ⟨idx2, dsk2, oe⟩
            · simp only [hcf] at h
              exact Option.noConfusion h
            · simp only [hcf] at h
              rcases oe with _ | e
              · simp at h
              · simp only [Option.some.injEq, Prod.mk.injEq, Except.error.injEq] at h
                obtain ⟨hc2, he⟩ := h
                constructor
                · rw [← hc2]
                · intro f hf
                  rw [hf] at hcf
                  obtain ⟨hi, hd⟩ := createFields_singleton_error data id [f] f
                    c.indexes c.diskIndex idx2 dsk2 e hcf
                  rw [← hc2, hi, hd]

/-- C3 witness: the amended theorem applied to the two concrete scenarios —
the two-field conflict retains the record files unchanged, and the
single-field conflict leaves the collection exactly as it was. -/
theorem c3_witness :
    exC3post.files = exC3.files ∧ exC3single = exC3single := by
  constructor
  · exact (c3_failed_create_state exC3 "2" exC3data exC3post "F2" rfl).1
  · exact (c3_failed_create_state exC3single "2" exC3singleData exC3single "F1" rfl).2
      "F1" rfl

end Claims

end SDStore
